import Mathlib

/-!
Verification of the autocopy run-directory lifecycle state machine
(`src/bin/autocopy.py`).  The `Autocopy` class is embedded shallowly: the
monitored set `rundirs_monitored`, the filesystem (as the set of existing
directory paths), the pid counter for spawned copy processes and the log of
observable side effects (emails, renames, process launches) form the state;
the per-cycle environment (LIMS oracle answers, process poll results,
rename success, wall clock, local finished evidence) is an explicit input.

The `RunDir` collaborator lives in `bin/rundir.py`, which is outside the
sources provided here; its trivial supervision-state accessors
(`is_copying`, `is_finished`, `set_copy_proc_and_start_time`,
`reset_to_copy_not_started`, `unset_copy_proc_and_set_stop_time`,
`seconds_since_copy_started`) are modelled from the spec, as indicated on
each definition.
-/

namespace AC

/-- A filesystem path: a run-root (opaque string) plus the component list
below it.  `os.path.join(root, a, b)` is `⟨root, [a, b]⟩`. -/
structure FsPath where
  root : String
  comps : List String
deriving DecidableEq, Repr

/-- `os.path.join(p, c)`. -/
def FsPath.join (p : FsPath) (c : String) : FsPath :=
  ⟨p.root, p.comps ++ [c]⟩

/-- `os.path.dirname` on a path below a run root. -/
def os_path_dirname (p : FsPath) : FsPath :=
  ⟨p.root, p.comps.dropLast⟩

/-- `os.path.basename` on a path below a run root. -/
def os_path_basename (p : FsPath) : String :=
  p.comps.getLast?.getD p.root

/-- Render a path as the string handed to the rsync command line. -/
def pathString (p : FsPath) : String :=
  p.root ++ String.join (p.comps.map (fun c => "/" ++ c))

/-- The filesystem is the list of directory paths that exist.  Only
directories matter to autocopy: `scan_for_rundirs` filters `os.listdir`
output through `os.path.isdir`, so plain files are never observed. -/
def fsExists (fs : List FsPath) (p : FsPath) : Bool :=
  decide (p ∈ fs)

/-- `os.renames src dest`: the directory stops existing at `src` and starts
existing at `dest` (a real filesystem holds each path at most once). -/
def fsRename (fs : List FsPath) (src dest : FsPath) : List FsPath :=
  (fs.filter (fun p => p != src)) ++ [dest]

/-- One monitored run directory (`rundir.RunDir`).  Identity is
`run_root` + `dir`; the supervision state is the optional copy-process
handle (its pid) and the recorded start/stop timestamps.
Modelled from the spec: the spec's data model gives a monitored directory
"an owned handle to at most one active transfer process, its start
timestamp, and (after completion) its stop timestamp". -/
structure RunDir where
  run_root : String
  dir : String
  copyProc : Option Nat
  copyStart : Option Nat
  copyStop : Option Nat
deriving DecidableEq, Repr

def RunDir.get_root (r : RunDir) : String := r.run_root

def RunDir.get_dir (r : RunDir) : String := r.dir

def RunDir.get_path (r : RunDir) : FsPath := ⟨r.run_root, [r.dir]⟩

/-- Modelled from the spec: a directory is in COPYING phase exactly when it
owns an active transfer-process handle. -/
def RunDir.is_copying (r : RunDir) : Bool := r.copyProc.isSome

/-- Modelled from the spec: `reset_to_copy_not_started` is the
COPYING → READY_FOR_COPY reversion, clearing the supervision state. -/
def RunDir.reset_to_copy_not_started (r : RunDir) : RunDir :=
  { r with copyProc := none, copyStart := none, copyStop := none }

/-- Modelled from the spec: release the process handle and record the stop
timestamp (done in the completed transition). -/
def RunDir.unset_copy_proc_and_set_stop_time (r : RunDir) (now : Nat) : RunDir :=
  { r with copyProc := none, copyStop := some now }

/-- Modelled from the spec: elapsed wall-clock seconds since the recorded
copy start. -/
def RunDir.seconds_since_copy_started (r : RunDir) (now : Nat) : Nat :=
  now - (r.copyStart.getD now)

/-- LIMS record for a run (`scgpm_lims` `RunInfo`); only the field the
control flow branches on is kept. -/
structure RunInfo where
  seqFailed : Bool
deriving DecidableEq, Repr

/-- Behaviour of one LIMS query (`RunInfo(conn, run)`): it returns a record,
raises an HTTP error with a status code, or raises some other exception
(e.g. a network error). -/
inductive LimsRaw where
  | success (info : RunInfo)
  | httpError (code : Nat)
  | otherError
deriving DecidableEq, Repr

/-- Python exceptions that the embedded control flow can raise. -/
inductive PyExn where
  | httpError (code : Nat)
  | attributeError
  | osError
  | duplicateRundir
  | smtpError
  | smtpConnectError
deriving DecidableEq, Repr

/-- Observable side effects, in program order. -/
inductive Event where
  | emailAutocopyException
  | emailRunAborted (src dest : FsPath)
  | emailCopyFailed (path : FsPath) (retcode : Int)
  | emailCopyComplete (dir : String)
  | emailCopyRestarted (dir : String)
  | emailRunNotFoundInLims (dir : String)
  | renamed (src dest : FsPath)
  | launched (cmd : List String) (pid : Nat)
  | killedProc (pid : Nat)
  | sentinelCreated (dir : String)
  | limsFlagsFinished (dir : String)
  | limsFlagsFailed (dir : String)
deriving DecidableEq, Repr

/-- The configuration (class-level settings of `Autocopy`, possibly
overridden by `config.json`).  `lims_enabled` is `self.LIMS is not None`. -/
structure Config where
  max_copy_processes : Nat
  seconds_before_copy_restart : Nat
  lims_enabled : Bool
  copy_dest_host : String
  copy_dest_user : String
  copy_dest_run_root : String
  copy_source_run_roots : List String

/-- Per-cycle environment: the oracle's answer per directory name, the poll
result per pid (`none` = still running, `some c` = exit code `c`), whether
a given rename succeeds, the local finished evidence per directory name,
and the wall clock. -/
structure Env where
  lims : String → LimsRaw
  poll : Nat → Option Int
  renameOk : FsPath → FsPath → Bool
  finishedFlag : String → Bool
  now : Nat

/-- The daemon state: filesystem, `self.rundirs_monitored`, the pid counter
for `subprocess.Popen`, and the event log. -/
structure AState where
  fs : List FsPath
  rundirs_monitored : List RunDir
  nextPid : Nat
  events : List Event
deriving Repr

def SUBDIR_COMPLETED : String := "Runs_Completed"

def SUBDIR_ABORTED : String := "Runs_Aborted"

/-- `list.remove(x)`: drop the first occurrence (Python object identity is
value identity here, since each RunDir object appears at most once). -/
def remove_first {α : Type} [DecidableEq α] : List α → α → List α
  | [], _ => []
  | x :: xs, a => if x = a then xs else x :: remove_first xs a

/-- In-place mutation of the object `a` (shared with the list) to `b`:
replace the first occurrence. -/
def replace_first {α : Type} [DecidableEq α] : List α → α → α → List α
  | [], _, _ => []
  | x :: xs, a, b => if x = a then b :: xs else x :: replace_first xs a b

/-- `Autocopy.copy_processes_counter`: count the monitored directories whose
`is_copying()` is true. -/
def copyCount : List RunDir → Nat
  | [] => 0
  | r :: rest => (if r.is_copying then 1 else 0) + copyCount rest

def copy_processes_counter (st : AState) : Nat :=
  copyCount st.rundirs_monitored

/-- `Autocopy.get_runinfo_from_lims`: with no LIMS return `None`; an
`HTTPError` from the query is re-raised; any other exception is logged and
`None` is returned. -/
def get_runinfo_from_lims (lims_enabled : Bool) (raw : LimsRaw) :
    Except PyExn (Option RunInfo) :=
  if lims_enabled then
    match raw with
    | LimsRaw.success info => Except.ok (some info)
    | LimsRaw.httpError code => Except.error (PyExn.httpError code)
    | LimsRaw.otherError => Except.ok none
  else Except.ok none

/-- `Autocopy.is_rundir_aborted`. -/
def is_rundir_aborted (lims_enabled : Bool) (lims_runinfo : Option RunInfo) : Bool :=
  match lims_runinfo with
  | none => if lims_enabled then false else true
  | some info => info.seqFailed

/-- `rundir.is_finished()`.  Modelled from the spec: the finished flag is
local on-disk evidence, read fresh from disk on each call; a directory that
no longer exists at its path has no such evidence. -/
def RunDir.is_finished (r : RunDir) (env : Env) (fs : List FsPath) : Bool :=
  fsExists fs r.get_path && env.finishedFlag r.dir

/-- `Autocopy.is_rundir_ready_for_copy`. -/
def is_rundir_ready_for_copy (env : Env) (fs : List FsPath) (r : RunDir) : Bool :=
  r.is_finished env fs && !r.is_copying

/-- `Autocopy.process_aborted_rundir`: rename the directory into the
`Runs_Aborted` sibling (an `OSError` on rename is re-raised); if a tracked
`RunDir` object was passed, remove it from the monitored set and set the
LIMS failed flags; finally send the aborted notification. -/
def process_aborted_rundir (env : Env) (st : AState) (lims_runinfo : Option RunInfo)
    (rundirObject : Option RunDir) (rundirPath0 : FsPath) : AState × Option PyExn :=
  let rundirPath := match rundirObject with
    | some robj => robj.get_path
    | none => rundirPath0
  let rundirName := os_path_basename rundirPath
  let dest := ((os_path_dirname rundirPath).join SUBDIR_ABORTED).join rundirName
  if env.renameOk rundirPath dest then
    let st1 : AState := { st with
      fs := fsRename st.fs rundirPath dest,
      events := st.events ++ [Event.renamed rundirPath dest] }
    match rundirObject with
    | some robj =>
      let st2 : AState :=
        { st1 with rundirs_monitored := remove_first st1.rundirs_monitored robj }
      match lims_runinfo with
      | some _ =>
        ({ st2 with events := st2.events ++
            [Event.limsFlagsFailed rundirName, Event.emailRunAborted rundirPath dest] },
         none)
      | none => (st2, some PyExn.attributeError)
    | none =>
      ({ st1 with events := st1.events ++ [Event.emailRunAborted rundirPath dest] },
       none)
  else (st, some PyExn.osError)

/-- `Autocopy.process_completed_rundir`: release the process handle and set
the stop time, send the completion email, then rename into the
`Runs_Completed` subdirectory (an `OSError` is re-raised), create the remote
sentinel and remove the directory from the monitored set.  Returns the
final state, the mutated `RunDir` object, and the raised exception if any. -/
def process_completed_rundir (env : Env) (st : AState) (r : RunDir) :
    AState × RunDir × Option PyExn :=
  let r1 := r.unset_copy_proc_and_set_stop_time env.now
  let st1 : AState := { st with
    rundirs_monitored := replace_first st.rundirs_monitored r r1,
    events := st.events ++ [Event.emailCopyComplete r.dir] }
  let dest : FsPath := ⟨r.run_root, [SUBDIR_COMPLETED, r.dir]⟩
  if env.renameOk r1.get_path dest then
    let st2 : AState := { st1 with
      fs := fsRename st1.fs r1.get_path dest,
      events := st1.events ++ [Event.renamed r1.get_path dest, Event.sentinelCreated r.dir] }
    ({ st2 with rundirs_monitored := remove_first st2.rundirs_monitored r1 }, r1, none)
  else (st1, r1, some PyExn.osError)

/-- `Autocopy.process_failed_copy_rundir`: send the failure email, then
revert the directory so the copy can restart. -/
def process_failed_copy_rundir (st : AState) (r : RunDir) (retcode : Int) :
    AState × RunDir :=
  let st1 : AState :=
    { st with events := st.events ++ [Event.emailCopyFailed r.get_path retcode] }
  let r1 := r.reset_to_copy_not_started
  ({ st1 with rundirs_monitored := replace_first st1.rundirs_monitored r r1 }, r1)

/-- The fixed rsync argument template built by `Autocopy.start_copy`. -/
def copy_cmd (cfg : Config) (r : RunDir) : List String :=
  ["rsync", "-rlptc",
   "-e", "ssh -l " ++ cfg.copy_dest_user,
   "--exclude=Thumbnail_Images/",
   "--chmod=Dug=rwX,Do=rX,Fug=rw,Fo=r",
   pathString r.get_path,
   cfg.copy_dest_host ++ ":" ++ cfg.copy_dest_run_root]

/-- `Autocopy.start_copy`: spawn the rsync child process and record the
handle and start time on the rundir (this is the only mutation that enters
the COPYING phase). -/
def start_copy (cfg : Config) (env : Env) (st : AState) (r : RunDir) :
    AState × RunDir :=
  let pid := st.nextPid
  let r1 : RunDir := { r with copyProc := some pid, copyStart := some env.now }
  ({ st with
      nextPid := pid + 1,
      events := st.events ++ [Event.launched (copy_cmd cfg r) pid],
      rundirs_monitored := replace_first st.rundirs_monitored r r1 },
   r1)

/-- `Autocopy.restart_copy`: kill the copy process, then start a new copy
of the same rundir. -/
def restart_copy (cfg : Config) (env : Env) (st : AState) (r : RunDir) :
    AState × RunDir :=
  let st1 : AState :=
    { st with events := st.events ++ [Event.killedProc (r.copyProc.getD 0)] }
  start_copy cfg env st1 r

/-- `Autocopy.process_copying_rundir`: poll the copy process; exit code 0
goes to the completed transition, no exit code yet triggers the stall check
(kill and relaunch past the threshold), a nonzero exit code goes to the
failure reversion. -/
def process_copying_rundir (cfg : Config) (env : Env) (st : AState) (r : RunDir) :
    AState × RunDir × Option PyExn :=
  match r.copyProc with
  | none => (st, r, some PyExn.attributeError)
  | some pid =>
    match env.poll pid with
    | some code =>
      if code = 0 then
        process_completed_rundir env st r
      else
        let p := process_failed_copy_rundir st r code
        (p.1, p.2, none)
    | none =>
      if r.seconds_since_copy_started env.now > cfg.seconds_before_copy_restart then
        let p := restart_copy cfg env st r
        ({ p.1 with events := p.1.events ++ [Event.emailCopyRestarted r.dir] }, p.2, none)
      else (st, r, none)

/-- `Autocopy.process_ready_for_copy_rundir`: admission control re-counts
the COPYING directories and refuses to launch at or above
`MAX_COPY_PROCESSES`; otherwise (emailing if the run is unknown to the
LIMS) it starts the copy and sets the LIMS started flags. -/
def process_ready_for_copy_rundir (cfg : Config) (env : Env) (st : AState)
    (r : RunDir) (lims_runinfo : Option RunInfo) : AState × RunDir :=
  if copy_processes_counter st ≥ cfg.max_copy_processes then (st, r)
  else
    let st1 : AState := match lims_runinfo with
      | none => { st with events := st.events ++ [Event.emailRunNotFoundInLims r.dir] }
      | some _ => st
    let p := start_copy cfg env st1 r
    match lims_runinfo with
    | some _ =>
      ({ p.1 with events := p.1.events ++ [Event.limsFlagsFinished r.dir] }, p.2)
    | none => p

/-- `Autocopy.process_rundir`: query the LIMS (an `HTTPError` propagates);
run the abort check (skipped while copying), then the copying poll, then —
on the possibly reverted object — the ready-for-copy dispatch. -/
def process_rundir (cfg : Config) (env : Env) (st : AState) (r : RunDir) :
    AState × Option PyExn :=
  match get_runinfo_from_lims cfg.lims_enabled (env.lims r.dir) with
  | Except.error e => (st, some e)
  | Except.ok lims_runinfo =>
    let abortStep : AState × Option PyExn :=
      if is_rundir_aborted cfg.lims_enabled lims_runinfo then
        if r.is_copying then (st, none)
        else process_aborted_rundir env st lims_runinfo (some r) r.get_path
      else (st, none)
    match abortStep.2 with
    | some e => (abortStep.1, some e)
    | none =>
      let copyStep : AState × RunDir × Option PyExn :=
        if r.is_copying then process_copying_rundir cfg env abortStep.1 r
        else (abortStep.1, r, none)
      match copyStep.2.2 with
      | some e => (copyStep.1, some e)
      | none =>
        if is_rundir_ready_for_copy env copyStep.1.fs copyStep.2.1 then
          ((process_ready_for_copy_rundir cfg env copyStep.1 copyStep.2.1 lims_runinfo).1,
           none)
        else (copyStep.1, none)

/-- The `for rundir in self.rundirs_monitored` loop of `Autocopy._main`,
with Python list-iterator semantics: the index advances once per step even
when the current element was removed from the list (so the element shifted
into its place is skipped this cycle).  An exception aborts the loop. -/
def process_loop (cfg : Config) (env : Env) : Nat → Nat → AState → AState × Option PyExn
  | _, 0, st => (st, none)
  | i, fuel + 1, st =>
    if h : i < st.rundirs_monitored.length then
      let p := process_rundir cfg env st (st.rundirs_monitored.get ⟨i, h⟩)
      match p.2 with
      | some e => (p.1, some e)
      | none => process_loop cfg env (i + 1) fuel p.1
    else (st, none)

/-- `Autocopy.RUNDIR_REG` (`^\d{6}_`): the name starts with six digits
followed by an underscore. -/
def RUNDIR_REG_match (s : String) : Bool :=
  match s.toList with
  | c1 :: c2 :: c3 :: c4 :: c5 :: c6 :: c7 :: _ =>
    c1.isDigit && c2.isDigit && c3.isDigit && c4.isDigit && c5.isDigit &&
      c6.isDigit && c7 == '_'
  | _ => false

/-- `os.listdir(run_root)`: the names of the immediate subdirectories of
the root. -/
def os_listdir (fs : List FsPath) (run_root : String) : List String :=
  fs.filterMap (fun p =>
    if p.root = run_root then
      match p.comps with
      | [c] => some c
      | _ => none
    else none)

/-- `Autocopy.get_rundirs` restricted to a root and a name. -/
def get_rundirs (st : AState) (run_root dirname : String) : List RunDir :=
  (st.rundirs_monitored.filter (fun r => r.dir == dirname)).filter
    (fun r => r.run_root == run_root)

/-- `Autocopy.get_rundir`: at most one match is expected; more than one
raises. -/
def get_rundir (st : AState) (run_root dirname : String) :
    Except PyExn (Option RunDir) :=
  match get_rundirs st run_root dirname with
  | [] => Except.ok none
  | [r] => Except.ok (some r)
  | _ => Except.error PyExn.duplicateRundir

/-- `RunDir(run_root, dirname)`: a freshly constructed rundir owns no copy
process. -/
def mkRunDir (run_root dirname : String) : RunDir :=
  ⟨run_root, dirname, none, none, none⟩

/-- `Autocopy.get_or_create_rundir`: reuse (and, with `remove`, detach) a
tracked entry; otherwise query the LIMS first — a 404 skips the directory
(returns `None`), any other `HTTPError` propagates, and a `None` runinfo
(LIMS off or a non-HTTP query error) hits
`limsRunInfo.has_status_sequencing_failed()` and raises `AttributeError`.
A failed-status run is aborted on the spot and not tracked. -/
def get_or_create_rundir (cfg : Config) (env : Env) (st : AState)
    (run_root dirname : String) (remove : Bool) :
    AState × Option RunDir × Option PyExn :=
  let rundirPath : FsPath := ⟨run_root, [dirname]⟩
  match get_rundir st run_root dirname with
  | Except.error e => (st, none, some e)
  | Except.ok (some m) =>
    if remove then
      ({ st with rundirs_monitored := remove_first st.rundirs_monitored m },
       some m, none)
    else (st, some m, none)
  | Except.ok none =>
    match get_runinfo_from_lims cfg.lims_enabled (env.lims dirname) with
    | Except.error (PyExn.httpError code) =>
      if code = 404 then (st, none, none)
      else (st, none, some (PyExn.httpError code))
    | Except.error e => (st, none, some e)
    | Except.ok none => (st, none, some PyExn.attributeError)
    | Except.ok (some info) =>
      if info.seqFailed then
        let p := process_aborted_rundir env st (some info) none rundirPath
        (p.1, none, p.2)
      else (st, some (mkRunDir run_root dirname), none)

/-- The candidate names produced by one scan of a root: immediate
subdirectories whose name matches `RUNDIR_REG`. -/
def scan_candidates (fs : List FsPath) (run_root : String) : List String :=
  (os_listdir fs run_root).filter RUNDIR_REG_match

/-- The body of the `scan_for_rundirs` loop over the listed names. -/
def scan_names (cfg : Config) (env : Env) (run_root : String) :
    List String → AState → List RunDir → AState × List RunDir × Option PyExn
  | [], st, acc => (st, acc, none)
  | d :: rest, st, acc =>
    if RUNDIR_REG_match d then
      let g := get_or_create_rundir cfg env st run_root d true
      match g.2.2 with
      | some e => (g.1, acc, some e)
      | none =>
        match g.2.1 with
        | some r => scan_names cfg env run_root rest g.1 (acc ++ [r])
        | none => scan_names cfg env run_root rest g.1 acc
    else scan_names cfg env run_root rest st acc

/-- `Autocopy.scan_for_rundirs`. -/
def scan_for_rundirs (cfg : Config) (env : Env) (st : AState) (run_root : String) :
    AState × List RunDir × Option PyExn :=
  scan_names cfg env run_root (os_listdir st.fs run_root) st []

/-- The loop of `update_rundirs_monitored` over the configured roots; on
success the monitored set is replaced by the freshly scanned list, and on
an exception the assignment never runs (entries already detached by the
scan are lost). -/
def update_roots_go (cfg : Config) (env : Env) :
    List String → AState → List RunDir → AState × Option PyExn
  | [], st, acc => ({ st with rundirs_monitored := acc }, none)
  | root :: rest, st, acc =>
    let s := scan_for_rundirs cfg env st root
    match s.2.2 with
    | some e => (s.1, some e)
    | none => update_roots_go cfg env rest s.1 (acc ++ s.2.1)

/-- `Autocopy.update_rundirs_monitored`. -/
def update_rundirs_monitored (cfg : Config) (env : Env) (st : AState) :
    AState × Option PyExn :=
  update_roots_go cfg env cfg.copy_source_run_roots st []

/-- One `Autocopy._main` iteration: reconcile, then process every monitored
directory (the periodic summary/freespace housekeeping has no effect on
the monitored set and is omitted). -/
def main_cycle (cfg : Config) (env : Env) (st : AState) : AState × Option PyExn :=
  let u := update_rundirs_monitored cfg env st
  match u.2 with
  | some e => (u.1, some e)
  | none => process_loop cfg env 0 u.1.rundirs_monitored.length u.1

/-- The `Autocopy.run` loop: each cycle's exception is caught at the loop
boundary (reported by email) and the loop continues. -/
def run_cycles (cfg : Config) : List Env → AState → AState
  | [], st => st
  | env :: rest, st =>
    let p := main_cycle cfg env st
    let st2 : AState := match p.2 with
      | some _ => { p.1 with events := p.1.events ++ [Event.emailAutocopyException] }
      | none => p.1
    run_cycles cfg rest st2

/-- Behaviour of one `smtp.sendmail` attempt. -/
inductive SendResult where
  | ok
  | disconnected
  | otherError
deriving DecidableEq, Repr

/-- `Autocopy.send_email`: with `--no_email` nothing is sent; a first
attempt raising `SMTPServerDisconnected` is retried once after
reconnecting, but the reconnect itself and the retry are unprotected, and
a first failure other than a disconnect is not caught at all. -/
def send_email (no_email : Bool) (first : SendResult) (reconnect_ok : Bool)
    (second : SendResult) : Option PyExn :=
  if no_email then none
  else
    match first with
    | SendResult.ok => none
    | SendResult.otherError => some PyExn.smtpError
    | SendResult.disconnected =>
      if reconnect_ok then
        match second with
        | SendResult.ok => none
        | _ => some PyExn.smtpError
      else some PyExn.smtpConnectError

/-! ### List counting lemmas for the COPYING-phase counter -/

theorem copyCount_append (a b : List RunDir) :
    copyCount (a ++ b) = copyCount a + copyCount b := by
  induction a with
  | nil => simp [copyCount]
  | cons x xs ih =>
    show copyCount (x :: (xs ++ b)) = copyCount (x :: xs) + copyCount b
    simp only [copyCount]
    rw [ih]
    omega

theorem copyCount_remove_first_le (l : List RunDir) (r : RunDir) :
    copyCount (remove_first l r) ≤ copyCount l := by
  induction l with
  | nil => simp [remove_first]
  | cons x xs ih =>
    simp only [remove_first]
    by_cases hx : x = r
    · simp only [if_pos hx, copyCount]
      exact Nat.le_add_left _ _
    · simp only [if_neg hx, copyCount]
      exact Nat.add_le_add_left ih _

theorem copyCount_remove_first_mem {l : List RunDir} {r : RunDir} (h : r ∈ l) :
    copyCount l = copyCount (remove_first l r) + (if r.is_copying then 1 else 0) := by
  induction l with
  | nil => cases h
  | cons x xs ih =>
    by_cases hx : x = r
    · subst hx
      simp [remove_first, copyCount]
      omega
    · have hmem : r ∈ xs := by
        cases h with
        | head => exact absurd rfl hx
        | tail _ h2 => exact h2
      simp only [remove_first, if_neg hx, copyCount]
      rw [ih hmem]
      omega

theorem copyCount_replace_first_le_succ (l : List RunDir) (r r1 : RunDir) :
    copyCount (replace_first l r r1) ≤ copyCount l + 1 := by
  induction l with
  | nil => simp [replace_first, copyCount]
  | cons x xs ih =>
    simp only [replace_first]
    by_cases hx : x = r
    · simp only [if_pos hx, copyCount]
      have h1 : (if r1.is_copying = true then 1 else 0) ≤ 1 := by split <;> omega
      omega
    · simp only [if_neg hx, copyCount]
      omega

theorem copyCount_replace_first_not_copying (l : List RunDir) (r r1 : RunDir)
    (h : r1.is_copying = false) :
    copyCount (replace_first l r r1) ≤ copyCount l := by
  induction l with
  | nil => simp [replace_first]
  | cons x xs ih =>
    simp only [replace_first]
    by_cases hx : x = r
    · simp only [if_pos hx, copyCount, h]
      have h0 : (if false = true then 1 else 0) = 0 := rfl
      omega
    · simp only [if_neg hx, copyCount]
      omega

theorem copyCount_replace_first_same (l : List RunDir) (r r1 : RunDir)
    (h : r1.is_copying = r.is_copying) :
    copyCount (replace_first l r r1) = copyCount l := by
  induction l with
  | nil => simp [replace_first]
  | cons x xs ih =>
    by_cases hx : x = r
    · subst hx
      simp [replace_first, copyCount, h]
    · simp only [replace_first, if_neg hx, copyCount, ih]

/-! ### The COPYING-phase counter is preserved or bounded by every step -/

theorem process_aborted_rundir_none_rundirs (env : Env) (st : AState)
    (lri : Option RunInfo) (p0 : FsPath) :
    (process_aborted_rundir env st lri none p0).1.rundirs_monitored =
      st.rundirs_monitored := by
  simp only [process_aborted_rundir]
  split <;> simp

theorem process_aborted_rundir_count (env : Env) (st : AState) (lri : Option RunInfo)
    (robj : Option RunDir) (p0 : FsPath) :
    copyCount (process_aborted_rundir env st lri robj p0).1.rundirs_monitored ≤
      copyCount st.rundirs_monitored := by
  cases robj with
  | none => rw [process_aborted_rundir_none_rundirs]
  | some r =>
    simp only [process_aborted_rundir]
    split
    · cases lri with
      | none => simpa using copyCount_remove_first_le _ _
      | some info => simpa using copyCount_remove_first_le _ _
    · simp

theorem process_completed_rundir_count (env : Env) (st : AState) (r : RunDir) :
    copyCount (process_completed_rundir env st r).1.rundirs_monitored ≤
      copyCount st.rundirs_monitored := by
  simp only [process_completed_rundir]
  split
  · simp only
    exact le_trans (copyCount_remove_first_le _ _)
      (copyCount_replace_first_not_copying _ _ _ rfl)
  · simp only
    exact copyCount_replace_first_not_copying _ _ _ rfl

theorem process_failed_copy_rundir_count (st : AState) (r : RunDir) (c : Int) :
    copyCount (process_failed_copy_rundir st r c).1.rundirs_monitored ≤
      copyCount st.rundirs_monitored := by
  simp only [process_failed_copy_rundir]
  exact copyCount_replace_first_not_copying _ _ _ rfl

theorem start_copy_rundirs (cfg : Config) (env : Env) (st : AState) (r : RunDir) :
    (start_copy cfg env st r).1.rundirs_monitored =
      replace_first st.rundirs_monitored r
        { r with copyProc := some st.nextPid, copyStart := some env.now } := by
  simp [start_copy]

theorem process_copying_rundir_count (cfg : Config) (env : Env) (st : AState)
    (r : RunDir) :
    copyCount (process_copying_rundir cfg env st r).1.rundirs_monitored ≤
      copyCount st.rundirs_monitored := by
  cases hp : r.copyProc with
  | none => simp [process_copying_rundir, hp]
  | some pid =>
    cases hpoll : env.poll pid with
    | some code =>
      by_cases hc : code = 0
      · simpa [process_copying_rundir, hp, hpoll, hc] using
          process_completed_rundir_count env st r
      · simpa [process_copying_rundir, hp, hpoll, hc] using
          process_failed_copy_rundir_count st r code
    | none =>
      by_cases ht : r.seconds_since_copy_started env.now >
          cfg.seconds_before_copy_restart
      · simp only [process_copying_rundir, hp, hpoll, if_pos ht, restart_copy]
        rw [start_copy_rundirs]
        simp only
        rw [copyCount_replace_first_same]
        simp [RunDir.is_copying, hp]
      · simp [process_copying_rundir, hp, hpoll, ht]

theorem process_ready_for_copy_rundir_count (cfg : Config) (env : Env) (st : AState)
    (r : RunDir) (lri : Option RunInfo)
    (h : copyCount st.rundirs_monitored ≤ cfg.max_copy_processes) :
    copyCount (process_ready_for_copy_rundir cfg env st r lri).1.rundirs_monitored ≤
      cfg.max_copy_processes := by
  simp only [process_ready_for_copy_rundir]
  split
  · exact h
  · rename_i hlt
    have hlt2 : copyCount st.rundirs_monitored < cfg.max_copy_processes :=
      Nat.lt_of_not_le hlt
    cases lri with
    | none =>
      simp only [start_copy_rundirs]
      calc copyCount (replace_first st.rundirs_monitored r _) ≤
            copyCount st.rundirs_monitored + 1 := copyCount_replace_first_le_succ _ _ _
        _ ≤ cfg.max_copy_processes := hlt2
    | some info =>
      simp only [start_copy_rundirs]
      calc copyCount (replace_first st.rundirs_monitored r _) ≤
            copyCount st.rundirs_monitored + 1 := copyCount_replace_first_le_succ _ _ _
        _ ≤ cfg.max_copy_processes := hlt2

theorem process_rundir_count (cfg : Config) (env : Env) (st : AState) (r : RunDir)
    (h : copyCount st.rundirs_monitored ≤ cfg.max_copy_processes) :
    copyCount (process_rundir cfg env st r).1.rundirs_monitored ≤
      cfg.max_copy_processes := by
  unfold process_rundir
  cases hlims : get_runinfo_from_lims cfg.lims_enabled (env.lims r.dir) with
  | error e => exact h
  | ok lri =>
    dsimp only
    set a := (if is_rundir_aborted cfg.lims_enabled lri then
        if r.is_copying then (st, none)
        else process_aborted_rundir env st lri (some r) r.get_path
      else (st, none)) with ha
    have h1 : copyCount a.1.rundirs_monitored ≤ cfg.max_copy_processes := by
      rw [ha]
      split
      · split
        · exact h
        · exact le_trans (process_aborted_rundir_count env st lri (some r) r.get_path) h
      · exact h
    cases hae : a.2 with
    | some e => exact h1
    | none =>
      dsimp only
      set c := (if r.is_copying then process_copying_rundir cfg env a.1 r
        else (a.1, r, none)) with hc
      have h2 : copyCount c.1.rundirs_monitored ≤ cfg.max_copy_processes := by
        rw [hc]
        split
        · exact le_trans (process_copying_rundir_count cfg env a.1 r) h1
        · exact h1
      cases hce : c.2.2 with
      | some e => exact h2
      | none =>
        dsimp only
        split
        · exact process_ready_for_copy_rundir_count cfg env c.1 c.2.1 lri h2
        · exact h2

theorem process_loop_count (cfg : Config) (env : Env) (i fuel : Nat) (st : AState)
    (h : copyCount st.rundirs_monitored ≤ cfg.max_copy_processes) :
    copyCount (process_loop cfg env i fuel st).1.rundirs_monitored ≤
      cfg.max_copy_processes := by
  induction fuel generalizing i st with
  | zero => exact h
  | succ n ih =>
    simp only [process_loop]
    split
    · rename_i hlt
      have hpr := process_rundir_count cfg env st
        (st.rundirs_monitored.get ⟨i, hlt⟩) h
      cases herr : (process_rundir cfg env st (st.rundirs_monitored.get ⟨i, hlt⟩)).2 with
      | some e => exact hpr
      | none => exact ih (i + 1) _ hpr
    · exact h

/-! ### Reconciliation never increases the COPYING-phase count -/

def optCopy : Option RunDir → Nat
  | none => 0
  | some r => if r.is_copying then 1 else 0

theorem get_rundir_mem {st : AState} {root d : String} {m : RunDir}
    (h : get_rundir st root d = Except.ok (some m)) :
    m ∈ st.rundirs_monitored := by
  unfold get_rundir at h
  cases hg : get_rundirs st root d with
  | nil => rw [hg] at h; simp at h
  | cons x xs =>
    cases xs with
    | nil =>
      rw [hg] at h
      simp at h
      have hx : m ∈ get_rundirs st root d := by
        rw [hg, h]
        exact List.mem_singleton_self m
      unfold get_rundirs at hx
      exact List.mem_of_mem_filter (List.mem_of_mem_filter hx)
    | cons y ys => rw [hg] at h; simp at h

theorem get_or_create_rundir_count (cfg : Config) (env : Env) (st : AState)
    (root d : String) :
    copyCount (get_or_create_rundir cfg env st root d true).1.rundirs_monitored +
      optCopy (get_or_create_rundir cfg env st root d true).2.1 ≤
      copyCount st.rundirs_monitored := by
  simp only [get_or_create_rundir]
  cases hg : get_rundir st root d with
  | error e => simp [optCopy]
  | ok mo =>
    cases mo with
    | some m =>
      have hm := get_rundir_mem hg
      simp only [if_pos rfl, optCopy]
      rw [copyCount_remove_first_mem hm]
      simp
    | none =>
      cases hlims : get_runinfo_from_lims cfg.lims_enabled (env.lims d) with
      | error e =>
        cases e <;> simp [optCopy]
        split <;> simp [optCopy]
      | ok io =>
        cases io with
        | none => simp [optCopy]
        | some info =>
          by_cases hf : info.seqFailed
          · simp [hf, optCopy, process_aborted_rundir_none_rundirs]
          · simp [hf, optCopy, mkRunDir, RunDir.is_copying]

theorem scan_names_count (cfg : Config) (env : Env) (root : String)
    (names : List String) (st : AState) (acc : List RunDir) :
    copyCount (scan_names cfg env root names st acc).1.rundirs_monitored +
      copyCount (scan_names cfg env root names st acc).2.1 ≤
      copyCount st.rundirs_monitored + copyCount acc := by
  induction names generalizing st acc with
  | nil => simp [scan_names]
  | cons d rest ih =>
    simp only [scan_names]
    split
    · have hgc := get_or_create_rundir_count cfg env st root d
      cases herr : (get_or_create_rundir cfg env st root d true).2.2 with
      | some e =>
        simp only [herr]
        have : optCopy (get_or_create_rundir cfg env st root d true).2.1 ≥ 0 :=
          Nat.zero_le _
        omega
      | none =>
        simp only [herr]
        cases hopt : (get_or_create_rundir cfg env st root d true).2.1 with
        | some r =>
          dsimp only
          have := ih (get_or_create_rundir cfg env st root d true).1 (acc ++ [r])
          rw [copyCount_append] at this
          rw [hopt] at hgc
          simp only [optCopy] at hgc
          simp only [copyCount] at this
          omega
        | none =>
          dsimp only
          have := ih (get_or_create_rundir cfg env st root d true).1 acc
          rw [hopt] at hgc
          simp only [optCopy] at hgc
          omega
    · exact ih st acc

theorem update_roots_go_count (cfg : Config) (env : Env) (roots : List String)
    (st : AState) (acc : List RunDir) :
    copyCount (update_roots_go cfg env roots st acc).1.rundirs_monitored ≤
      copyCount st.rundirs_monitored + copyCount acc := by
  induction roots generalizing st acc with
  | nil => simp [update_roots_go]
  | cons root rest ih =>
    simp only [update_roots_go]
    have hscan := scan_names_count cfg env root (os_listdir st.fs root) st []
    simp only [copyCount] at hscan
    cases herr : (scan_for_rundirs cfg env st root).2.2 with
    | some e =>
      simp only [herr]
      simp only [scan_for_rundirs] at *
      omega
    | none =>
      simp only [herr]
      have := ih (scan_for_rundirs cfg env st root).1
        (acc ++ (scan_for_rundirs cfg env st root).2.1)
      rw [copyCount_append] at this
      simp only [scan_for_rundirs] at *
      omega

theorem update_rundirs_monitored_count (cfg : Config) (env : Env) (st : AState) :
    copyCount (update_rundirs_monitored cfg env st).1.rundirs_monitored ≤
      copyCount st.rundirs_monitored := by
  have := update_roots_go_count cfg env cfg.copy_source_run_roots st []
  simpa [update_rundirs_monitored, copyCount] using this

theorem main_cycle_count (cfg : Config) (env : Env) (st : AState)
    (h : copyCount st.rundirs_monitored ≤ cfg.max_copy_processes) :
    copyCount (main_cycle cfg env st).1.rundirs_monitored ≤
      cfg.max_copy_processes := by
  simp only [main_cycle]
  have hu := le_trans (update_rundirs_monitored_count cfg env st) h
  cases herr : (update_rundirs_monitored cfg env st).2 with
  | some e => exact hu
  | none => exact process_loop_count cfg env 0 _ _ hu

theorem run_cycles_count (cfg : Config) (envs : List Env) (st : AState)
    (h : copyCount st.rundirs_monitored ≤ cfg.max_copy_processes) :
    copyCount (run_cycles cfg envs st).rundirs_monitored ≤
      cfg.max_copy_processes := by
  induction envs generalizing st with
  | nil => exact h
  | cons env rest ih =>
    simp only [run_cycles]
    have hmc := main_cycle_count cfg env st h
    cases herr : (main_cycle cfg env st).2 with
    | some e =>
      simp only [herr]
      exact ih _ hmc
    | none =>
      simp only [herr]
      exact ih _ hmc

/-! ### Concrete instances used to witness the claims -/

/-- A concrete configuration matching the shipped defaults. -/
def exCfg : Config :=
  { max_copy_processes := 2
    seconds_before_copy_restart := 86400
    lims_enabled := true
    copy_dest_host := "localhost"
    copy_dest_user := "seq_user"
    copy_dest_run_root := "copied_runs"
    copy_source_run_roots := ["runroot"] }

/-- A benign environment: the LIMS knows every run and reports no failure,
processes are still running, renames succeed, local evidence says finished. -/
def exEnv : Env :=
  { lims := fun _ => LimsRaw.success ⟨false⟩
    poll := fun _ => none
    renameOk := fun _ _ => true
    finishedFlag := fun _ => true
    now := 100 }

/-- A starting state with one finished run directory on disk and an empty
monitored set. -/
def exState : AState :=
  { fs := [⟨"runroot", ["Runs_Completed"]⟩, ⟨"runroot", ["Runs_Aborted"]⟩,
           ⟨"runroot", ["200101_MACHINE1"]⟩]
    rundirs_monitored := []
    nextPid := 0
    events := [] }

/-! ### C1 -/

/-- C1: starting from a state in which no monitored directory is in COPYING
phase, the number of monitored directories in COPYING phase never exceeds
`MAX_COPY_PROCESSES` over any sequence of control-loop cycles; moreover the
dispatch decision recomputes the count and launches only strictly below the
cap — at or above it, `process_ready_for_copy_rundir` changes nothing. -/
theorem c1_copying_bounded_by_cap (cfg : Config) (envs : List Env) (st : AState)
    (h0 : copyCount st.rundirs_monitored = 0) :
    copyCount (run_cycles cfg envs st).rundirs_monitored ≤ cfg.max_copy_processes ∧
    (∀ env2 st2 r lri, cfg.max_copy_processes ≤ copy_processes_counter st2 →
      process_ready_for_copy_rundir cfg env2 st2 r lri = (st2, r)) := by
  constructor
  · exact run_cycles_count cfg envs st (h0 ▸ Nat.zero_le _)
  · intro env2 st2 r lri hge
    simp [process_ready_for_copy_rundir, hge]

/-- Witness for C1 at a concrete configuration, state and cycle sequence. -/
theorem c1_copying_bounded_by_cap_witness :
    copyCount exState.rundirs_monitored = 0 ∧
    copyCount (run_cycles exCfg [exEnv, exEnv] exState).rundirs_monitored ≤
      exCfg.max_copy_processes :=
  ⟨rfl, (c1_copying_bounded_by_cap exCfg [exEnv, exEnv] exState rfl).1⟩

/-! ### C4 -/

/-- The environment in which every LIMS query raises a 404 `HTTPError`. -/
def env404 : Env :=
  { lims := fun _ => LimsRaw.httpError 404
    poll := fun _ => none
    renameOk := fun _ _ => true
    finishedFlag := fun _ => true
    now := 100 }

/-- C4: contrary to the claim, when the oracle raises a 404 for a newly
discovered directory, `get_or_create_rundir` returns `None` ("Skipping")
without raising, so the reconciled monitored set for that cycle does NOT
contain the directory (the code prints "perhaps it just wasn't entered in
yet. Skipping." and drops it), even though the comment in
`is_rundir_aborted` asserts that such a directory is still monitored. -/
theorem c4_404_directory_not_tracked :
    (get_or_create_rundir exCfg env404 exState "runroot" "200101_MACHINE1" true).2.1
        = none ∧
    (get_or_create_rundir exCfg env404 exState "runroot" "200101_MACHINE1" true).2.2
        = none ∧
    (update_rundirs_monitored exCfg env404 exState).1.rundirs_monitored = [] ∧
    (update_rundirs_monitored exCfg env404 exState).2 = none := by
  refine ⟨rfl, rfl, ?_, ?_⟩ <;> rfl

/-! ### C5 -/

/-- The environment in which every LIMS query raises a non-HTTP network
error (e.g. `requests.exceptions.ConnectionError`). -/
def envNetErr : Env :=
  { lims := fun _ => LimsRaw.otherError
    poll := fun _ => none
    renameOk := fun _ _ => true
    finishedFlag := fun _ => true
    now := 100 }

/-- C5: contrary to the claim, when the oracle is unreachable (a non-404
transient error) while reconciling a new directory,
`get_runinfo_from_lims` swallows the error and returns `None`, after which
`get_or_create_rundir` evaluates
`limsRunInfo.has_status_sequencing_failed()` on `None` and raises
`AttributeError`; the exception escapes the cycle's reconciliation and the
directory is not added to the monitored set. -/
theorem c5_network_error_crashes_reconciliation :
    get_runinfo_from_lims exCfg.lims_enabled (envNetErr.lims "200101_MACHINE1")
        = Except.ok none ∧
    (get_or_create_rundir exCfg envNetErr exState "runroot" "200101_MACHINE1" true).2.2
        = some PyExn.attributeError ∧
    (get_or_create_rundir exCfg envNetErr exState "runroot" "200101_MACHINE1" true).2.1
        = none ∧
    (update_rundirs_monitored exCfg envNetErr exState).2
        = some PyExn.attributeError ∧
    (update_rundirs_monitored exCfg envNetErr exState).1.rundirs_monitored = [] := by
  refine ⟨rfl, rfl, rfl, ?_, ?_⟩ <;> rfl

/-! ### C6 -/

/-- C6 counterexample: the claim "a delivery failure never propagates out of
the notification path" is false — when the first send raises
`SMTPServerDisconnected` and the resend after reconnecting fails, the
resend's exception propagates out of `send_email` (the retry is not wrapped
in any handler). -/
theorem c6_counterexample_delivery_failure_propagates :
    send_email false SendResult.disconnected true SendResult.otherError
      = some PyExn.smtpError := rfl

/-- C6 (amended): an invocation of `send_email` propagates no exception
exactly when email is disabled, the first send succeeds, or the first send
raised `SMTPServerDisconnected` and the single retry after a successful
reconnect succeeds; in every other failure case (a non-disconnect failure,
a failed reconnect, or a failed retry) the exception propagates out of
`send_email`. -/
theorem c6_send_email_retry_characterization (first second : SendResult)
    (rc : Bool) :
    send_email false first rc second = none ↔
      (first = SendResult.ok ∨
        (first = SendResult.disconnected ∧ rc = true ∧ second = SendResult.ok)) := by
  cases first <;> cases second <;> cases rc <;> simp [send_email]

/-! ### C9 -/

theorem os_listdir_rename_to_completed (fs : List FsPath) (root dir : String) :
    dir ∉ os_listdir
      (fsRename fs ⟨root, [dir]⟩ ⟨root, [SUBDIR_COMPLETED, dir]⟩) root := by
  intro hmem
  simp only [os_listdir, List.mem_filterMap] at hmem
  obtain ⟨p, hp, hpe⟩ := hmem
  simp only [fsRename, List.mem_append, List.mem_filter, List.mem_singleton] at hp
  by_cases hroot : p.root = root
  · simp only [if_pos hroot] at hpe
    cases hcomps : p.comps with
    | nil => rw [hcomps] at hpe; cases hpe
    | cons c cs =>
      cases cs with
      | nil =>
        rw [hcomps] at hpe
        simp at hpe
        cases hp with
        | inl hfil =>
          have hne := hfil.2
          have : p = (⟨root, [dir]⟩ : FsPath) := by
            cases p
            simp only at hroot hcomps
            subst hroot
            rw [hcomps, hpe]
          rw [this] at hne
          simp at hne
        | inr hdest =>
          rw [hdest] at hcomps
          simp at hcomps
      | cons c2 cs2 => rw [hcomps] at hpe; cases hpe
  · simp only [if_neg hroot] at hpe
    cases hpe

/-- C9: after the completed transition renames `root/<name>` to
`root/Runs_Completed/<name>`, a re-scan of the root no longer produces the
name as a candidate: scanning enumerates only immediate subdirectories of
the root, the moved directory is no longer one of them, and the
`Runs_Completed` holding directory itself never matches the six-digit
date-prefix pattern `RUNDIR_REG`. -/
theorem c9_completed_run_not_rediscovered (fs : List FsPath) (root dir : String) :
    dir ∉ scan_candidates
        (fsRename fs ⟨root, [dir]⟩ ⟨root, [SUBDIR_COMPLETED, dir]⟩) root ∧
    RUNDIR_REG_match SUBDIR_COMPLETED = false := by
  constructor
  · intro hmem
    exact os_listdir_rename_to_completed fs root dir (List.mem_of_mem_filter hmem)
  · rfl

/-! ### Helper lemmas about first-occurrence replacement and removal -/

theorem replace_first_length {α : Type} [DecidableEq α] (l : List α) (a b : α) :
    (replace_first l a b).length = l.length := by
  induction l with
  | nil => rfl
  | cons x xs ih =>
    simp only [replace_first]
    by_cases hx : x = a <;> simp [hx, ih]

theorem mem_replace_first {α : Type} [DecidableEq α] {l : List α} {a : α} (b : α)
    (h : a ∈ l) : b ∈ replace_first l a b := by
  induction l with
  | nil => cases h
  | cons x xs ih =>
    simp only [replace_first]
    by_cases hx : x = a
    · rw [if_pos hx]
      exact List.mem_cons_self b xs
    · rw [if_neg hx]
      have hmem : a ∈ xs := by
        cases h with
        | head => exact absurd rfl hx
        | tail _ h2 => exact h2
      exact List.mem_cons_of_mem x (ih hmem)

theorem mem_of_mem_remove_first {α : Type} [DecidableEq α] {l : List α} {a x : α}
    (h : x ∈ remove_first l a) : x ∈ l := by
  induction l with
  | nil => cases h
  | cons y ys ih =>
    simp only [remove_first] at h
    by_cases hy : y = a
    · rw [if_pos hy] at h
      exact List.mem_cons_of_mem y h
    · rw [if_neg hy] at h
      cases h with
      | head => exact List.mem_cons_self _ _
      | tail _ h2 => exact List.mem_cons_of_mem _ (ih h2)

theorem remove_first_length_mem {α : Type} [DecidableEq α] {l : List α} {a : α}
    (h : a ∈ l) : (remove_first l a).length + 1 = l.length := by
  induction l with
  | nil => cases h
  | cons y ys ih =>
    simp only [remove_first]
    by_cases hy : y = a
    · rw [if_pos hy]
      simp
    · rw [if_neg hy]
      have hmem : a ∈ ys := by
        cases h with
        | head => exact absurd rfl hy
        | tail _ h2 => exact h2
      simp only [List.length_cons]
      rw [← ih hmem]

/-- After replacing the (unique) entry `r` by `r1` and removing `r1`, no
entry with `r`'s identity remains in the monitored list. -/
theorem removed_after_complete (r r1 : RunDir)
    (hroot : r1.run_root = r.run_root) (hdir : r1.dir = r.dir) :
    ∀ l : List RunDir, l.Nodup →
      (∀ x ∈ l, x.run_root = r.run_root → x.dir = r.dir → x = r) →
      ∀ x ∈ remove_first (replace_first l r r1) r1,
        ¬(x.run_root = r.run_root ∧ x.dir = r.dir) := by
  intro l
  induction l with
  | nil => intro _ _ x hx; cases hx
  | cons y ys ih =>
    intro hnd hU x hx hxid
    have hndtail : ys.Nodup := (List.nodup_cons.mp hnd).2
    have hUtail : ∀ z ∈ ys, z.run_root = r.run_root → z.dir = r.dir → z = r :=
      fun z hz => hU z (List.mem_cons_of_mem y hz)
    by_cases hy : y = r
    · rw [replace_first, if_pos hy] at hx
      rw [remove_first, if_pos rfl] at hx
      have hxr : x = r := hUtail x hx hxid.1 hxid.2
      have hnotin : r ∉ ys := by
        rw [← hy]
        exact (List.nodup_cons.mp hnd).1
      exact hnotin (hxr ▸ hx)
    · rw [replace_first, if_neg hy] at hx
      have hyne1 : y ≠ r1 := by
        intro hcontra
        have : y = r := hU y (List.mem_cons_self y ys)
          (hcontra ▸ hroot) (hcontra ▸ hdir)
        exact hy this
      rw [remove_first, if_neg hyne1] at hx
      cases hx with
      | head =>
        exact hy (hU y (List.mem_cons_self y ys) hxid.1 hxid.2)
      | tail _ h2 =>
        exact ih hndtail hUtail x h2 hxid

/-- After removing the (unique) entry `r`, no entry with `r`'s identity
remains in the monitored list. -/
theorem removed_after_abort (r : RunDir) :
    ∀ l : List RunDir, l.Nodup →
      (∀ x ∈ l, x.run_root = r.run_root → x.dir = r.dir → x = r) →
      ∀ x ∈ remove_first l r,
        ¬(x.run_root = r.run_root ∧ x.dir = r.dir) := by
  intro l
  induction l with
  | nil => intro _ _ x hx; cases hx
  | cons y ys ih =>
    intro hnd hU x hx hxid
    have hndtail : ys.Nodup := (List.nodup_cons.mp hnd).2
    have hUtail : ∀ z ∈ ys, z.run_root = r.run_root → z.dir = r.dir → z = r :=
      fun z hz => hU z (List.mem_cons_of_mem y hz)
    by_cases hy : y = r
    · rw [remove_first, if_pos hy] at hx
      have hxr : x = r := hUtail x hx hxid.1 hxid.2
      have hnotin : r ∉ ys := by
        rw [← hy]
        exact (List.nodup_cons.mp hnd).1
      exact hnotin (hxr ▸ hx)
    · rw [remove_first, if_neg hy] at hx
      cases hx with
      | head =>
        exact hy (hU y (List.mem_cons_self y ys) hxid.1 hxid.2)
      | tail _ h2 =>
        exact ih hndtail hUtail x h2 hxid

theorem fsExists_rename_src (fs : List FsPath) (src dest : FsPath) (h : dest ≠ src) :
    fsExists (fsRename fs src dest) src = false := by
  simp only [fsExists, fsRename, decide_eq_false_iff_not, List.mem_append,
    List.mem_filter, List.mem_singleton]
  intro hmem
  cases hmem with
  | inl hl =>
    have := hl.2
    simp [bne_iff_ne] at this
  | inr hr => exact h hr.symm

/-! ### C2 -/

/-- C2: for a monitored directory with an active transfer process, polling
in one cycle dispatches on the exit code.  Exit code 0 performs exactly one
completed terminal transition: the completion email, one rename into the
`Runs_Completed` subdirectory, and removal from the monitored set.  A
nonzero exit code reverts the directory to the not-copying state (the
process handle is cleared, so a finished directory classifies as
ready-for-copy again) with no rename and no removal in that handling. -/
theorem c2_poll_exit_code_dispatch (cfg : Config) (env : Env) (st : AState)
    (r : RunDir) (pid : Nat)
    (hproc : r.copyProc = some pid)
    (hmem : r ∈ st.rundirs_monitored)
    (hnd : st.rundirs_monitored.Nodup)
    (hU : ∀ x ∈ st.rundirs_monitored,
      x.run_root = r.run_root → x.dir = r.dir → x = r) :
    ((env.poll pid = some 0 ∧
        env.renameOk r.get_path ⟨r.run_root, [SUBDIR_COMPLETED, r.dir]⟩ = true) →
      (process_copying_rundir cfg env st r).2.2 = none ∧
      (process_copying_rundir cfg env st r).1.events =
        st.events ++ [Event.emailCopyComplete r.dir,
          Event.renamed r.get_path ⟨r.run_root, [SUBDIR_COMPLETED, r.dir]⟩,
          Event.sentinelCreated r.dir] ∧
      (process_copying_rundir cfg env st r).1.rundirs_monitored.length + 1 =
        st.rundirs_monitored.length ∧
      (∀ x ∈ (process_copying_rundir cfg env st r).1.rundirs_monitored,
        ¬(x.run_root = r.run_root ∧ x.dir = r.dir))) ∧
    (∀ c : Int, env.poll pid = some c → c ≠ 0 →
      (process_copying_rundir cfg env st r).2.2 = none ∧
      (process_copying_rundir cfg env st r).1.events =
        st.events ++ [Event.emailCopyFailed r.get_path c] ∧
      (process_copying_rundir cfg env st r).2.1 = r.reset_to_copy_not_started ∧
      (process_copying_rundir cfg env st r).2.1 ∈
        (process_copying_rundir cfg env st r).1.rundirs_monitored ∧
      RunDir.is_copying (process_copying_rundir cfg env st r).2.1 = false ∧
      (process_copying_rundir cfg env st r).1.rundirs_monitored.length =
        st.rundirs_monitored.length ∧
      (r.is_finished env st.fs = true →
        is_rundir_ready_for_copy env (process_copying_rundir cfg env st r).1.fs
          (process_copying_rundir cfg env st r).2.1 = true)) := by
  constructor
  · rintro ⟨hpoll, hren⟩
    have hren3 : env.renameOk
        ((r.unset_copy_proc_and_set_stop_time env.now).get_path)
        ⟨r.run_root, [SUBDIR_COMPLETED, r.dir]⟩ = true := hren
    have hren2 : env.renameOk (⟨r.run_root, [r.dir]⟩ : FsPath)
        ⟨r.run_root, [SUBDIR_COMPLETED, r.dir]⟩ = true := hren
    have hres1 : (process_copying_rundir cfg env st r).1.rundirs_monitored =
        remove_first (replace_first st.rundirs_monitored r
            (r.unset_copy_proc_and_set_stop_time env.now))
          (r.unset_copy_proc_and_set_stop_time env.now) := by
      simp [process_copying_rundir, process_completed_rundir, hproc, hpoll,
        hren3, hren2]
    refine ⟨?_, ?_, ?_, ?_⟩
    · simp [process_copying_rundir, process_completed_rundir, hproc, hpoll,
        hren3, hren2]
    · simp [process_copying_rundir, process_completed_rundir, hproc, hpoll,
        hren3, hren2, RunDir.unset_copy_proc_and_set_stop_time, RunDir.get_path]
    · rw [hres1, remove_first_length_mem (mem_replace_first _ hmem),
        replace_first_length]
    · intro x hx
      rw [hres1] at hx
      exact removed_after_complete r (r.unset_copy_proc_and_set_stop_time env.now)
        rfl rfl st.rundirs_monitored hnd hU x hx
  · intro c hpoll hc
    have h21 : (process_copying_rundir cfg env st r).2.1 =
        r.reset_to_copy_not_started := by
      simp [process_copying_rundir, process_failed_copy_rundir, hproc, hpoll, hc]
    have hres2 : (process_copying_rundir cfg env st r).1.rundirs_monitored =
        replace_first st.rundirs_monitored r r.reset_to_copy_not_started := by
      simp [process_copying_rundir, process_failed_copy_rundir, hproc, hpoll, hc]
    have hfs : (process_copying_rundir cfg env st r).1.fs = st.fs := by
      simp [process_copying_rundir, process_failed_copy_rundir, hproc, hpoll, hc]
    refine ⟨?_, ?_, h21, ?_, ?_, ?_, ?_⟩
    · simp [process_copying_rundir, process_failed_copy_rundir, hproc, hpoll, hc]
    · simp [process_copying_rundir, process_failed_copy_rundir, hproc, hpoll, hc]
    · rw [hres2, h21]
      exact mem_replace_first _ hmem
    · rw [h21]
      rfl
    · rw [hres2, replace_first_length]
    · intro hfin
      rw [hfs, h21]
      simp only [RunDir.is_finished, Bool.and_eq_true] at hfin
      simp [is_rundir_ready_for_copy, RunDir.is_finished, RunDir.is_copying,
        RunDir.reset_to_copy_not_started, RunDir.get_path]
      have hfin1 := hfin.1
      have hfin2 := hfin.2
      simp only [RunDir.get_path] at hfin1
      exact ⟨hfin1, hfin2⟩

/-- A monitored run directory with an active copy process (pid 7). -/
def exRunDirCopying : RunDir := ⟨"runroot", "200101_MACHINE1", some 7, some 10, none⟩

/-- A state monitoring `exRunDirCopying`. -/
def exStateCopying : AState :=
  { fs := [⟨"runroot", ["Runs_Completed"]⟩, ⟨"runroot", ["Runs_Aborted"]⟩,
           ⟨"runroot", ["200101_MACHINE1"]⟩]
    rundirs_monitored := [exRunDirCopying]
    nextPid := 8
    events := [] }

/-- An environment whose copy process has exited with code 0. -/
def envExit0 : Env :=
  { lims := fun _ => LimsRaw.success ⟨false⟩
    poll := fun _ => some 0
    renameOk := fun _ _ => true
    finishedFlag := fun _ => true
    now := 200 }

/-- An environment whose copy process has exited with code 1. -/
def envExit1 : Env :=
  { lims := fun _ => LimsRaw.success ⟨false⟩
    poll := fun _ => some 1
    renameOk := fun _ _ => true
    finishedFlag := fun _ => true
    now := 200 }

/-- Witness for C2 at both exit codes. -/
theorem c2_poll_exit_code_dispatch_witness :
    (exRunDirCopying.copyProc = some 7 ∧
      exRunDirCopying ∈ exStateCopying.rundirs_monitored ∧
      exStateCopying.rundirs_monitored.Nodup) ∧
    (process_copying_rundir exCfg envExit0 exStateCopying
        exRunDirCopying).1.rundirs_monitored.length + 1 =
      exStateCopying.rundirs_monitored.length ∧
    (process_copying_rundir exCfg envExit1 exStateCopying
        exRunDirCopying).2.1 = exRunDirCopying.reset_to_copy_not_started := by
  refine ⟨⟨rfl, ?_, ?_⟩, ?_, ?_⟩
  · decide
  · decide
  · exact ((c2_poll_exit_code_dispatch exCfg envExit0 exStateCopying exRunDirCopying 7
      rfl (by decide) (by decide) (by decide)).1 ⟨rfl, rfl⟩).2.2.1
  · exact ((c2_poll_exit_code_dispatch exCfg envExit1 exStateCopying exRunDirCopying 7
      rfl (by decide) (by decide) (by decide)).2 1 rfl (by decide)).2.2.1

/-! ### C3 -/

/-- C3: in one processing cycle, a directory whose oracle record reports
sequencing-failed and which is not currently copying is renamed into the
`Runs_Aborted` subdirectory and removed from the monitored set (with the
abort notification sent); the same failed status arriving while the
directory is copying (process still running, below the stall threshold)
produces no action at all in that cycle — the state is returned unchanged
and the copy continues. -/
theorem c3_failed_status_abort_dispatch (cfg : Config) (env : Env) (st : AState)
    (r : RunDir) (info : RunInfo)
    (hlimson : cfg.lims_enabled = true)
    (hlims : env.lims r.dir = LimsRaw.success info)
    (hfail : info.seqFailed = true)
    (hmem : r ∈ st.rundirs_monitored)
    (hnd : st.rundirs_monitored.Nodup)
    (hU : ∀ x ∈ st.rundirs_monitored,
      x.run_root = r.run_root → x.dir = r.dir → x = r) :
    ((r.copyProc = none ∧
        env.renameOk r.get_path ⟨r.run_root, [SUBDIR_ABORTED, r.dir]⟩ = true) →
      (process_rundir cfg env st r).2 = none ∧
      (process_rundir cfg env st r).1.events =
        st.events ++ [Event.renamed r.get_path ⟨r.run_root, [SUBDIR_ABORTED, r.dir]⟩,
          Event.limsFlagsFailed r.dir,
          Event.emailRunAborted r.get_path ⟨r.run_root, [SUBDIR_ABORTED, r.dir]⟩] ∧
      (process_rundir cfg env st r).1.rundirs_monitored.length + 1 =
        st.rundirs_monitored.length ∧
      (∀ x ∈ (process_rundir cfg env st r).1.rundirs_monitored,
        ¬(x.run_root = r.run_root ∧ x.dir = r.dir))) ∧
    (∀ pid, r.copyProc = some pid → env.poll pid = none →
      ¬(r.seconds_since_copy_started env.now > cfg.seconds_before_copy_restart) →
      process_rundir cfg env st r = (st, none)) := by
  constructor
  · rintro ⟨hnc, hren⟩
    have hren2 : env.renameOk (⟨r.run_root, [r.dir]⟩ : FsPath)
        ⟨r.run_root, [SUBDIR_ABORTED, r.dir]⟩ = true := hren
    have hcop : r.is_copying = false := by simp [RunDir.is_copying, hnc]
    have hnotex : fsExists (fsRename st.fs (⟨r.run_root, [r.dir]⟩ : FsPath)
        ⟨r.run_root, [SUBDIR_ABORTED, r.dir]⟩) ⟨r.run_root, [r.dir]⟩ = false :=
      fsExists_rename_src _ _ _ (by simp)
    have hres : process_rundir cfg env st r =
        ({ fs := fsRename st.fs ⟨r.run_root, [r.dir]⟩
              ⟨r.run_root, [SUBDIR_ABORTED, r.dir]⟩,
           rundirs_monitored := remove_first st.rundirs_monitored r,
           nextPid := st.nextPid,
           events := st.events ++
             [Event.renamed ⟨r.run_root, [r.dir]⟩ ⟨r.run_root, [SUBDIR_ABORTED, r.dir]⟩,
              Event.limsFlagsFailed r.dir,
              Event.emailRunAborted ⟨r.run_root, [r.dir]⟩
                ⟨r.run_root, [SUBDIR_ABORTED, r.dir]⟩] }, none) := by
      simp [process_rundir, get_runinfo_from_lims, hlimson, hlims,
        is_rundir_aborted, hfail, hcop, process_aborted_rundir, os_path_dirname,
        os_path_basename, FsPath.join, RunDir.get_path, hren2,
        is_rundir_ready_for_copy, RunDir.is_finished, hnotex]
    refine ⟨?_, ?_, ?_, ?_⟩
    · rw [hres]
    · rw [hres]
      simp [RunDir.get_path]
    · rw [hres]
      exact remove_first_length_mem hmem
    · intro x hx
      rw [hres] at hx
      exact removed_after_abort r st.rundirs_monitored hnd hU x hx
  · intro pid hproc hpoll hnostall
    have hcop : r.is_copying = true := by simp [RunDir.is_copying, hproc]
    simp [process_rundir, get_runinfo_from_lims, hlimson, hlims,
      is_rundir_aborted, hfail, hcop, process_copying_rundir, hproc, hpoll,
      hnostall, is_rundir_ready_for_copy]

/-- A monitored run directory with no copy process. -/
def exRunDirReady : RunDir := ⟨"runroot", "200101_MACHINE1", none, none, none⟩

/-- A state monitoring `exRunDirReady`. -/
def exStateReady : AState :=
  { fs := [⟨"runroot", ["Runs_Completed"]⟩, ⟨"runroot", ["Runs_Aborted"]⟩,
           ⟨"runroot", ["200101_MACHINE1"]⟩]
    rundirs_monitored := [exRunDirReady]
    nextPid := 0
    events := [] }

/-- An environment whose oracle reports sequencing-failed for every run and
whose copy processes are still running. -/
def envFailed : Env :=
  { lims := fun _ => LimsRaw.success ⟨true⟩
    poll := fun _ => none
    renameOk := fun _ _ => true
    finishedFlag := fun _ => true
    now := 200 }

/-- Witness for C3: the not-copying directory is removed, the copying one is
left fully untouched. -/
theorem c3_failed_status_abort_dispatch_witness :
    (∀ x ∈ (process_rundir exCfg envFailed exStateReady
        exRunDirReady).1.rundirs_monitored,
      ¬(x.run_root = exRunDirReady.run_root ∧ x.dir = exRunDirReady.dir)) ∧
    process_rundir exCfg envFailed exStateCopying exRunDirCopying =
      (exStateCopying, none) := by
  constructor
  · exact ((c3_failed_status_abort_dispatch exCfg envFailed exStateReady
      exRunDirReady ⟨true⟩ rfl rfl rfl (by decide) (by decide) (by decide)).1
      ⟨rfl, rfl⟩).2.2.2
  · exact (c3_failed_status_abort_dispatch exCfg envFailed exStateCopying
      exRunDirCopying ⟨true⟩ rfl rfl rfl (by decide) (by decide) (by decide)).2
      7 rfl rfl (by decide)

/-! ### C7 -/

/-- C7: a monitored directory whose transfer process is still running (no
exit code) past the stall threshold has its process killed and a new
transfer launched with the same argument template (`copy_cmd` of the same
rundir); the directory keeps an active process handle (phase remains
COPYING), stays in the monitored set, and no rename — hence no terminal
transition — occurs. -/
theorem c7_stalled_copy_restarted (cfg : Config) (env : Env) (st : AState)
    (r : RunDir) (pid : Nat)
    (hproc : r.copyProc = some pid)
    (hpoll : env.poll pid = none)
    (hstall : r.seconds_since_copy_started env.now > cfg.seconds_before_copy_restart)
    (hmem : r ∈ st.rundirs_monitored) :
    (process_copying_rundir cfg env st r).2.2 = none ∧
    (process_copying_rundir cfg env st r).1.events =
      st.events ++ [Event.killedProc pid,
        Event.launched (copy_cmd cfg r) st.nextPid,
        Event.emailCopyRestarted r.dir] ∧
    RunDir.is_copying (process_copying_rundir cfg env st r).2.1 = true ∧
    (process_copying_rundir cfg env st r).2.1.run_root = r.run_root ∧
    (process_copying_rundir cfg env st r).2.1.dir = r.dir ∧
    copy_cmd cfg (process_copying_rundir cfg env st r).2.1 = copy_cmd cfg r ∧
    (process_copying_rundir cfg env st r).2.1 ∈
      (process_copying_rundir cfg env st r).1.rundirs_monitored ∧
    (process_copying_rundir cfg env st r).1.rundirs_monitored.length =
      st.rundirs_monitored.length ∧
    (process_copying_rundir cfg env st r).1.fs = st.fs := by
  have h21 : (process_copying_rundir cfg env st r).2.1 =
      { r with copyProc := some st.nextPid, copyStart := some env.now } := by
    simp [process_copying_rundir, restart_copy, start_copy, hproc, hpoll, hstall]
  have hres : (process_copying_rundir cfg env st r).1.rundirs_monitored =
      replace_first st.rundirs_monitored r
        { r with copyProc := some st.nextPid, copyStart := some env.now } := by
    simp [process_copying_rundir, restart_copy, start_copy, hproc, hpoll, hstall]
  refine ⟨?_, ?_, ?_, ?_, ?_, ?_, ?_, ?_, ?_⟩
  · simp [process_copying_rundir, restart_copy, start_copy, hproc, hpoll, hstall]
  · simp [process_copying_rundir, restart_copy, start_copy, hproc, hpoll, hstall]
  · rw [h21]
    rfl
  · rw [h21]
  · rw [h21]
  · rw [h21]
    simp [copy_cmd, pathString, RunDir.get_path]
  · rw [h21, hres]
    exact mem_replace_first _ hmem
  · rw [hres, replace_first_length]
  · simp [process_copying_rundir, restart_copy, start_copy, hproc, hpoll, hstall]

/-- An environment whose copy process is still running long after the copy
started (far beyond the default 24-hour stall threshold). -/
def envStalled : Env :=
  { lims := fun _ => LimsRaw.success ⟨false⟩
    poll := fun _ => none
    renameOk := fun _ _ => true
    finishedFlag := fun _ => true
    now := 100000 }

/-- Witness for C7: the stalled copy of `exRunDirCopying` (started at 10,
now 100000, threshold 86400) is killed and relaunched with the original
argument template. -/
theorem c7_stalled_copy_restarted_witness :
    exRunDirCopying.seconds_since_copy_started envStalled.now >
      exCfg.seconds_before_copy_restart ∧
    (process_copying_rundir exCfg envStalled exStateCopying
        exRunDirCopying).1.events =
      [Event.killedProc 7,
       Event.launched (copy_cmd exCfg exRunDirCopying) 8,
       Event.emailCopyRestarted "200101_MACHINE1"] ∧
    copy_cmd exCfg (process_copying_rundir exCfg envStalled exStateCopying
        exRunDirCopying).2.1 = copy_cmd exCfg exRunDirCopying := by
  have h := c7_stalled_copy_restarted exCfg envStalled exStateCopying
    exRunDirCopying 7 rfl rfl (by decide) (by decide)
  exact ⟨by decide, h.2.1, h.2.2.2.2.2.1⟩

/-! ### C8 -/

/-- C8: when the rename into the terminal subdirectory fails, the failure
is fatal for that directory's transition: the `OSError` is re-raised (it
comes back as the step's exception, headed for the top-level loop fault
barrier) and the directory is NOT removed from the monitored set.  For the
completed transition the monitored list keeps the directory (same length,
mutated entry still present, filesystem untouched); for the abort
transition the whole state is returned unchanged with the error. -/
theorem c8_rename_failure_fatal_not_swallowed (cfg : Config) (env : Env)
    (st : AState) (r : RunDir)
    (hmem : r ∈ st.rundirs_monitored) :
    (∀ pid, r.copyProc = some pid → env.poll pid = some 0 →
      env.renameOk r.get_path ⟨r.run_root, [SUBDIR_COMPLETED, r.dir]⟩ = false →
      (process_copying_rundir cfg env st r).2.2 = some PyExn.osError ∧
      (process_copying_rundir cfg env st r).2.1 ∈
        (process_copying_rundir cfg env st r).1.rundirs_monitored ∧
      (process_copying_rundir cfg env st r).1.rundirs_monitored.length =
        st.rundirs_monitored.length ∧
      (process_copying_rundir cfg env st r).1.fs = st.fs) ∧
    (∀ info : RunInfo, cfg.lims_enabled = true →
      env.lims r.dir = LimsRaw.success info → info.seqFailed = true →
      r.copyProc = none →
      env.renameOk r.get_path ⟨r.run_root, [SUBDIR_ABORTED, r.dir]⟩ = false →
      process_rundir cfg env st r = (st, some PyExn.osError)) := by
  constructor
  · intro pid hproc hpoll hren
    have hren3 : env.renameOk
        ((r.unset_copy_proc_and_set_stop_time env.now).get_path)
        ⟨r.run_root, [SUBDIR_COMPLETED, r.dir]⟩ = false := hren
    have hren2 : env.renameOk (⟨r.run_root, [r.dir]⟩ : FsPath)
        ⟨r.run_root, [SUBDIR_COMPLETED, r.dir]⟩ = false := hren
    have h21 : (process_copying_rundir cfg env st r).2.1 =
        r.unset_copy_proc_and_set_stop_time env.now := by
      simp [process_copying_rundir, process_completed_rundir, hproc, hpoll,
        hren3, hren2]
    have hres : (process_copying_rundir cfg env st r).1.rundirs_monitored =
        replace_first st.rundirs_monitored r
          (r.unset_copy_proc_and_set_stop_time env.now) := by
      simp [process_copying_rundir, process_completed_rundir, hproc, hpoll,
        hren3, hren2]
    refine ⟨?_, ?_, ?_, ?_⟩
    · simp [process_copying_rundir, process_completed_rundir, hproc, hpoll,
        hren3, hren2]
    · rw [h21, hres]
      exact mem_replace_first _ hmem
    · rw [hres, replace_first_length]
    · simp [process_copying_rundir, process_completed_rundir, hproc, hpoll,
        hren3, hren2]
  · intro info hlimson hlims hfail hnc hren
    have hren2 : env.renameOk (⟨r.run_root, [r.dir]⟩ : FsPath)
        ⟨r.run_root, [SUBDIR_ABORTED, r.dir]⟩ = false := hren
    have hcop : r.is_copying = false := by simp [RunDir.is_copying, hnc]
    simp [process_rundir, get_runinfo_from_lims, hlimson, hlims,
      is_rundir_aborted, hfail, hcop, process_aborted_rundir, os_path_dirname,
      os_path_basename, FsPath.join, RunDir.get_path, hren2]

/-- An environment where the copy has succeeded (exit 0) but every rename
fails. -/
def envRenameFail : Env :=
  { lims := fun _ => LimsRaw.success ⟨false⟩
    poll := fun _ => some 0
    renameOk := fun _ _ => false
    finishedFlag := fun _ => true
    now := 200 }

/-- An environment where the oracle reports sequencing-failed and every
rename fails. -/
def envAbortRenameFail : Env :=
  { lims := fun _ => LimsRaw.success ⟨true⟩
    poll := fun _ => none
    renameOk := fun _ _ => false
    finishedFlag := fun _ => true
    now := 200 }

/-- Witness for C8 on both terminal transitions. -/
theorem c8_rename_failure_fatal_not_swallowed_witness :
    ((process_copying_rundir exCfg envRenameFail exStateCopying
        exRunDirCopying).2.2 = some PyExn.osError ∧
      (process_copying_rundir exCfg envRenameFail exStateCopying
        exRunDirCopying).1.rundirs_monitored.length =
        exStateCopying.rundirs_monitored.length) ∧
    process_rundir exCfg envAbortRenameFail exStateReady exRunDirReady =
      (exStateReady, some PyExn.osError) := by
  have h := c8_rename_failure_fatal_not_swallowed exCfg envRenameFail
    exStateCopying exRunDirCopying (by decide)
  have h2 := c8_rename_failure_fatal_not_swallowed exCfg envAbortRenameFail
    exStateReady exRunDirReady (by decide)
  have ha := h.1 7 rfl rfl rfl
  exact ⟨⟨ha.1, ha.2.2.1⟩, h2.2 ⟨true⟩ rfl rfl rfl rfl rfl⟩

/-! ### C10 -/

/-- C10: in the completed transition the completion notification is sent
and the process handle released (stop time recorded) strictly before the
rename into `Runs_Completed` is attempted: on rename success the event log
shows the email ahead of the rename, and on rename failure the email has
already been emitted, the handle is cleared with the stop time set, the
directory is still monitored with its files untouched, and it classifies
as ready-for-copy again. -/
theorem c10_email_and_release_before_rename (cfg : Config) (env : Env)
    (st : AState) (r : RunDir) (pid : Nat)
    (hproc : r.copyProc = some pid)
    (hpoll : env.poll pid = some 0)
    (hmem : r ∈ st.rundirs_monitored)
    (hflag : env.finishedFlag r.dir = true)
    (hexists : fsExists st.fs r.get_path = true) :
    ((env.renameOk r.get_path ⟨r.run_root, [SUBDIR_COMPLETED, r.dir]⟩ = true →
      (process_copying_rundir cfg env st r).1.events =
        st.events ++ [Event.emailCopyComplete r.dir,
          Event.renamed r.get_path ⟨r.run_root, [SUBDIR_COMPLETED, r.dir]⟩,
          Event.sentinelCreated r.dir])) ∧
    (env.renameOk r.get_path ⟨r.run_root, [SUBDIR_COMPLETED, r.dir]⟩ = false →
      (process_copying_rundir cfg env st r).2.2 = some PyExn.osError ∧
      (process_copying_rundir cfg env st r).1.events =
        st.events ++ [Event.emailCopyComplete r.dir] ∧
      (process_copying_rundir cfg env st r).2.1.copyProc = none ∧
      (process_copying_rundir cfg env st r).2.1.copyStop = some env.now ∧
      (process_copying_rundir cfg env st r).2.1 ∈
        (process_copying_rundir cfg env st r).1.rundirs_monitored ∧
      (process_copying_rundir cfg env st r).1.fs = st.fs ∧
      is_rundir_ready_for_copy env (process_copying_rundir cfg env st r).1.fs
        (process_copying_rundir cfg env st r).2.1 = true) := by
  constructor
  · intro hren
    have hren3 : env.renameOk
        ((r.unset_copy_proc_and_set_stop_time env.now).get_path)
        ⟨r.run_root, [SUBDIR_COMPLETED, r.dir]⟩ = true := hren
    have hren2 : env.renameOk (⟨r.run_root, [r.dir]⟩ : FsPath)
        ⟨r.run_root, [SUBDIR_COMPLETED, r.dir]⟩ = true := hren
    simp [process_copying_rundir, process_completed_rundir, hproc, hpoll,
      hren3, hren2, RunDir.unset_copy_proc_and_set_stop_time, RunDir.get_path]
  · intro hren
    have hren3 : env.renameOk
        ((r.unset_copy_proc_and_set_stop_time env.now).get_path)
        ⟨r.run_root, [SUBDIR_COMPLETED, r.dir]⟩ = false := hren
    have hren2 : env.renameOk (⟨r.run_root, [r.dir]⟩ : FsPath)
        ⟨r.run_root, [SUBDIR_COMPLETED, r.dir]⟩ = false := hren
    have h21 : (process_copying_rundir cfg env st r).2.1 =
        r.unset_copy_proc_and_set_stop_time env.now := by
      simp [process_copying_rundir, process_completed_rundir, hproc, hpoll,
        hren3, hren2]
    have hres : (process_copying_rundir cfg env st r).1.rundirs_monitored =
        replace_first st.rundirs_monitored r
          (r.unset_copy_proc_and_set_stop_time env.now) := by
      simp [process_copying_rundir, process_completed_rundir, hproc, hpoll,
        hren3, hren2]
    have hfs : (process_copying_rundir cfg env st r).1.fs = st.fs := by
      simp [process_copying_rundir, process_completed_rundir, hproc, hpoll,
        hren3, hren2]
    refine ⟨?_, ?_, ?_, ?_, ?_, hfs, ?_⟩
    · simp [process_copying_rundir, process_completed_rundir, hproc, hpoll,
        hren3, hren2]
    · simp [process_copying_rundir, process_completed_rundir, hproc, hpoll,
        hren3, hren2]
    · rw [h21]
      rfl
    · rw [h21]
      rfl
    · rw [h21, hres]
      exact mem_replace_first _ hmem
    · rw [hfs, h21]
      simp only [RunDir.get_path] at hexists
      simp [is_rundir_ready_for_copy, RunDir.is_finished, RunDir.is_copying,
        RunDir.unset_copy_proc_and_set_stop_time, RunDir.get_path, hexists, hflag]

/-- Witness for C10 with a failing rename: the completion email was sent,
the handle is released, and the directory classifies ready-for-copy. -/
theorem c10_email_and_release_before_rename_witness :
    (process_copying_rundir exCfg envRenameFail exStateCopying
        exRunDirCopying).1.events =
      [Event.emailCopyComplete "200101_MACHINE1"] ∧
    is_rundir_ready_for_copy envRenameFail
      (process_copying_rundir exCfg envRenameFail exStateCopying
        exRunDirCopying).1.fs
      (process_copying_rundir exCfg envRenameFail exStateCopying
        exRunDirCopying).2.1 = true := by
  have h := (c10_email_and_release_before_rename exCfg envRenameFail
    exStateCopying exRunDirCopying 7 rfl rfl (by decide) rfl rfl).2 rfl
  exact ⟨h.2.1, h.2.2.2.2.2.2⟩

end AC
